import Mathlib

/-!
Shallow embedding of `src/app.py` (a FastAPI personal-finance dashboard
backend) and proofs about its persisted comment store, balance-history
store, and balance-shaping endpoints.

Modelling conventions:
* A persisted JSON file is a `FileState α`: the file may be absent, may
  fail to parse as JSON (`malformed`, raising `json.JSONDecodeError` in
  Python), or may hold a parsed JSON value (`JVal α`): either an array of
  records of type `α` or some other JSON value (`nonArr`, e.g. a number —
  `json.load` accepts any top-level JSON value).  `nonArr` stands for a
  non-array value that is not an empty container, so that iterating or
  appending on it raises in Python.
* Numeric balances are modelled as `ℚ`.  The Python code converts the
  exchange's decimal strings with `float(...)` and computes `total - free`;
  the claims of interest are about the algebraic relation between the
  returned fields, which is faithfully captured by exact arithmetic.
* JSON serialisation is assumed faithful: `save` followed by a parse
  yields the same array of records (`json.dump` of a list of flat string
  records round-trips through `json.load`).
* Python dictionaries backing a comment record are modelled as records of
  `Option String` fields, reflecting `dict.get(key, default)` access.
-/

/-- A parsed JSON value stored in one of the two data files: either a JSON
array of records of type `α`, or some other (non-array, non-empty-container)
JSON value such as a number. -/
inductive JVal (α : Type) where
  | arr (items : List α)
  | nonArr
  deriving DecidableEq

/-- On-disk state of one JSON data file: absent, unparseable
(`json.JSONDecodeError`), or holding a parsed JSON value. -/
inductive FileState (α : Type) where
  | absent
  | malformed
  | content (v : JVal α)
  deriving DecidableEq

/-- A stored comment record, a JSON object whose `content` / `created_at`
keys may be missing (fields read with `c.get(key, "")` in the source). -/
structure CommentRec where
  content : Option String
  created_at : Option String
  deriving DecidableEq

/-- A balance-history snapshot record `{timestamp, balance}`. -/
structure Snap where
  timestamp : String
  balance : ℚ
  deriving DecidableEq

/-- One entry of the exchange's futures-balance payload; field access in the
source is `b.get("asset")`, `b.get("balance", 0)`, `b.get("availableBalance", 0)`. -/
structure ExEntry where
  asset : Option String
  balance : Option ℚ
  availableBalance : Option ℚ
  deriving DecidableEq

/-- Outcome of `client.futures_account_balance()`: a payload, or any raised
transport/auth exception. -/
inductive ExchangeOutcome where
  | ok (payload : List ExEntry)
  | raised
  deriving DecidableEq

/-- `MAX_HISTORY_LEN = 500` (src/app.py line 31). -/
def MAX_HISTORY_LEN : Nat := 500

/-- `load_comments` (src/app.py lines 48–55): missing file → `[]`;
`json.JSONDecodeError` → `[]`; otherwise the parsed JSON value is returned
as-is (only the decode error is caught). -/
def load_comments (fs : FileState CommentRec) : JVal CommentRec :=
  match fs with
  | .absent => .arr []
  | .malformed => .arr []
  | .content v => v

/-- `save_comments` (src/app.py lines 58–61): rewrites the whole file with
the serialised array. -/
def save_comments (comments : List CommentRec) : FileState CommentRec :=
  .content (.arr comments)

/-- `load_balance_history` (src/app.py lines 63–70): same shape as
`load_comments`. -/
def load_balance_history (fs : FileState Snap) : JVal Snap :=
  match fs with
  | .absent => .arr []
  | .malformed => .arr []
  | .content v => v

/-- `load_comments` viewed as a file-system operation: it opens the file
read-only, so it returns the parsed value and leaves the file state
unchanged. -/
def load_comments_op (fs : FileState CommentRec) :
    JVal CommentRec × FileState CommentRec :=
  (load_comments fs, fs)

/-- `load_balance_history` viewed as a file-system operation (read-only). -/
def load_balance_history_op (fs : FileState Snap) :
    JVal Snap × FileState Snap :=
  (load_balance_history fs, fs)

/-- `save_balance_history` (src/app.py lines 73–75). -/
def save_balance_history (history : List Snap) : FileState Snap :=
  .content (.arr history)

/-- Truthiness of an environment variable read with `os.getenv`: absent
(`None`) and the empty string are both falsy in `if not BINANCE_API_KEY`. -/
def envTruthy (v : Option String) : Bool :=
  match v with
  | none => false
  | some s => !(s == "")

/-- Error message raised by `get_binance_client` when a credential is
missing (src/app.py line 41). -/
def keyMissingMsg : String := "Binance API 키가 설정되어 있지 않습니다."

/-- `get_binance_client` (src/app.py lines 38–42): raises `RuntimeError`
when either credential is unset or empty. -/
def get_binance_client (key secret : Option String) : Except String Unit :=
  if !(envTruthy key) || !(envTruthy secret) then .error keyMissingMsg
  else .ok ()

/-- The USDT scan of the payload (src/app.py lines 127–131 and 176–180):
first entry whose `asset` field equals `"USDT"`. -/
def findUsdt (payload : List ExEntry) : Option ExEntry :=
  payload.find? (fun b => b.asset == some "USDT")

/-- One shaped balance object of the `/api/balance` response. -/
structure BalanceOut where
  asset : String
  free : ℚ
  locked : ℚ
  total : ℚ
  deriving DecidableEq

/-- Response of `GET /api/balance`: `{status:"ok", balances:[...]}` or an
HTTP error `{status:"error", message}` with the given status code. -/
inductive BalanceResult where
  | ok (balances : List BalanceOut)
  | err (httpStatus : Nat) (status message : String)
  deriving DecidableEq

/-- Generic upstream-failure message of `/api/balance` (src/app.py line 152). -/
def balanceFailMsg : String := "선물 잔고 조회 중 오류가 발생했습니다."

/-- `get_balance` (src/app.py lines 112–153). -/
def get_balance (key secret : Option String) (ex : ExchangeOutcome) :
    BalanceResult :=
  match get_binance_client key secret with
  | .error e => .err 500 "error" e
  | .ok _ =>
    match ex with
    | .raised => .err 500 "error" balanceFailMsg
    | .ok payload =>
      match findUsdt payload with
      | none => .ok []
      | some usdt_info =>
        let total := usdt_info.balance.getD 0
        let free := usdt_info.availableBalance.getD 0
        let locked := total - free
        .ok [{ asset := "USDT (Futures)", free := free, locked := locked,
               total := total }]

/-- The `summary` object of `GET /api/summary`. -/
structure SummaryOut where
  coin_count : Nat
  futures_usdt_balance : ℚ
  pnl_rate : Option ℚ
  deriving DecidableEq

/-- Response of `GET /api/summary`. -/
inductive SummaryResult where
  | ok (summary : SummaryOut)
  | err (httpStatus : Nat) (status message : String)
  deriving DecidableEq

/-- Generic failure message of `/api/summary` (src/app.py line 209). -/
def summaryFailMsg : String := "요약 정보를 불러오는 중 오류가 발생했습니다."

/-- The history-trimming step of `get_summary` (src/app.py lines 190–195):
append the snapshot, then keep only the last `MAX_HISTORY_LEN` entries when
the cap is exceeded (`history[-MAX_HISTORY_LEN:]`). -/
def histAppend (history : List Snap) (e : Snap) : List Snap :=
  let h := history ++ [e]
  if MAX_HISTORY_LEN < h.length then h.rtake MAX_HISTORY_LEN else h

/-- The `futures_usdt` computation of `get_summary` (src/app.py lines
176–185): `0.0` when no USDT entry exists, else the entry's `balance`
field (defaulted to `0`). -/
def summaryBalance (payload : List ExEntry) : ℚ :=
  match findUsdt payload with
  | none => 0
  | some usdt_info => usdt_info.balance.getD 0

/-- `get_summary` (src/app.py lines 159–210).  `now` is the value of
`datetime.utcnow().isoformat()`.  Returns the response together with the
new state of the balance-history file.  When the loaded history is not a
JSON array, `history.append(...)` raises and the broad `except` at line 205
turns it into a 500 response, leaving the file untouched. -/
def get_summary (key secret : Option String) (ex : ExchangeOutcome)
    (now : String) (fs : FileState Snap) : SummaryResult × FileState Snap :=
  match get_binance_client key secret with
  | .error e => (.err 500 "error" e, fs)
  | .ok _ =>
    match ex with
    | .raised => (.err 500 "error" summaryFailMsg, fs)
    | .ok payload =>
      let futures_usdt : ℚ := summaryBalance payload
      match load_balance_history fs with
      | .nonArr => (.err 500 "error" summaryFailMsg, fs)
      | .arr history =>
        let history := histAppend history { timestamp := now,
                                            balance := futures_usdt }
        (.ok { coin_count := 1, futures_usdt_balance := futures_usdt,
               pnl_rate := none },
         save_balance_history history)

/-- Response of `GET /api/balance-history` (src/app.py lines 216–219):
always `{status:"ok", history: <loaded value>}`. -/
structure HistoryResult where
  status : String
  history : JVal Snap
  deriving DecidableEq

/-- `get_balance_history` (src/app.py lines 216–219). -/
def get_balance_history (fs : FileState Snap) : HistoryResult :=
  { status := "ok", history := load_balance_history fs }

/-- The `CommentOut` response model (src/app.py lines 85–89). -/
structure CommentOut where
  id : Nat
  nick : String
  content : String
  created_at : String
  deriving DecidableEq

/-- Response of `GET /api/comments`: the projected list, or an uncaught
exception (500) when the loaded value is not a list of objects. -/
inductive CommentsResult where
  | ok (comments : List CommentOut)
  | raised
  deriving DecidableEq

/-- The read-time projection of one stored comment (src/app.py lines
229–235): 1-based position `idx`, nickname `f"익명{idx}"`, missing fields
defaulted to `""` by `c.get(key, "")`. -/
def commentView (idx : Nat) (c : CommentRec) : CommentOut :=
  { id := idx, nick := "익명" ++ toString idx,
    content := c.content.getD "", created_at := c.created_at.getD "" }

/-- The `for idx, c in enumerate(comments, start=1)` loop of `get_comments`
(src/app.py lines 229–235), accumulating the projected views in order. -/
def commentViews : Nat → List CommentRec → List CommentOut
  | _, [] => []
  | idx, c :: rest => commentView idx c :: commentViews (idx + 1) rest

/-- `get_comments` (src/app.py lines 225–236). -/
def get_comments (fs : FileState CommentRec) : CommentsResult :=
  match load_comments fs with
  | .nonArr => .raised
  | .arr comments => .ok (commentViews 1 comments)

/-- The whitespace set of Python's `str.strip()` / `str.isspace()`
(CPython's `Py_UNICODE_ISSPACE`): the ASCII whitespace characters
`\t \n \x0b \x0c \r`, `\x1c`, `\x1d`, `\x1e`, `\x1f` and space, plus
`\x85` (next line), `\xa0` (no-break space), `\u1680` (ogham space mark),
`\u2000`-`\u200a` (en quad through hair space), `\u2028` (line separator),
`\u2029` (paragraph separator), `\u202f` (narrow no-break space),
`\u205f` (medium mathematical space) and `\u3000` (ideographic space). -/
def pyIsSpace (c : Char) : Bool :=
  (0x09 ≤ c.val && c.val ≤ 0x0d) || c.val == 0x20 ||
  (0x1c ≤ c.val && c.val ≤ 0x1f) || c.val == 0x85 || c.val == 0xa0 ||
  c.val == 0x1680 || (0x2000 ≤ c.val && c.val ≤ 0x200a) ||
  c.val == 0x2028 || c.val == 0x2029 || c.val == 0x202f ||
  c.val == 0x205f || c.val == 0x3000

/-- Python's `str.strip()`: drop leading and trailing whitespace
characters, for the whitespace set `pyIsSpace`. -/
def pyStrip (s : String) : String :=
  ⟨((s.data.dropWhile pyIsSpace).reverse.dropWhile pyIsSpace).reverse⟩

/-- Validation-error body of `POST /api/comments` (src/app.py line 245). -/
def emptyContentMsg : String := "내용이 비어있습니다."

/-- Response of `POST /api/comments`: the created record, an HTTP 400
`{detail: ...}` validation error, or an uncaught exception (500). -/
inductive PostResult where
  | ok (c : CommentOut)
  | badRequest (httpStatus : Nat) (detail : String)
  | raised
  deriving DecidableEq

/-- `post_comment` (src/app.py lines 239–263): trim, reject empty, append
`{content, created_at}`, rewrite the file, and answer with
`id = len(comments)` and `nick = f"익명{new_id}"`.  Returns the response
together with the new state of the comments file. -/
def post_comment (comment_content : String) (now : String)
    (fs : FileState CommentRec) : PostResult × FileState CommentRec :=
  let content := pyStrip comment_content
  if content == "" then
    (.badRequest 400 emptyContentMsg, fs)
  else
    match load_comments fs with
    | .nonArr => (.raised, fs)
    | .arr comments =>
      let comments := comments ++ [{ content := some content,
                                     created_at := some now }]
      let new_id := comments.length
      (.ok { id := new_id, nick := "익명" ++ toString new_id,
             content := content, created_at := now },
       save_comments comments)

/-- Response of `GET /health` (src/app.py lines 269–271). -/
structure HealthResult where
  status : String
  deriving DecidableEq

/-- `health_check` (src/app.py lines 269–271). -/
def health_check : HealthResult := { status := "ok" }

/-- One successful `GET /api/summary` invocation, as seen by the history
store: the exchange payload the call observed and the timestamp it used. -/
structure SCall where
  payload : List ExEntry
  now : String

/-- The snapshot that one successful summary call appends (src/app.py
lines 189–193). -/
def summarySnap (c : SCall) : Snap :=
  { timestamp := c.now, balance := summaryBalance c.payload }

/-- The balance-history file state after a sequence of `GET /api/summary`
calls, each with a successfully answered exchange query. -/
def summaryFold (key secret : Option String) (fs : FileState Snap)
    (calls : List SCall) : FileState Snap :=
  calls.foldl (fun s c => (get_summary key secret (.ok c.payload) c.now s).2) fs

/-! ### Helper lemmas -/

theorem length_rtake (l : List α) (n : Nat) :
    (l.rtake n).length = min n l.length := by
  simp only [List.rtake, List.length_drop]
  omega

theorem rtake_of_length_le {l : List α} {n : Nat} (h : l.length ≤ n) :
    l.rtake n = l := by
  simp [List.rtake, Nat.sub_eq_zero_of_le h]

theorem rtake_append_right {n : Nat} (xs ys : List α) (h : n ≤ ys.length) :
    (xs ++ ys).rtake n = ys.rtake n := by
  rw [List.rtake_eq_reverse_take_reverse, List.rtake_eq_reverse_take_reverse,
    List.reverse_append, List.take_append_of_le_length]
  simpa using h

theorem take_append_take (n : Nat) (c d : List α) :
    (c ++ d.take n).take n = (c ++ d).take n := by
  rw [List.take_append_eq_append_take, List.take_append_eq_append_take,
    List.take_take]
  have : (n - c.length) ⊓ n = n - c.length :=
    inf_eq_left.mpr (Nat.sub_le n c.length)
  rw [this]

theorem rtake_rtake_append (n : Nat) (xs ys : List α) :
    (xs.rtake n ++ ys).rtake n = (xs ++ ys).rtake n := by
  rw [List.rtake_eq_reverse_take_reverse (xs.rtake n ++ ys),
    List.rtake_eq_reverse_take_reverse (xs ++ ys),
    List.reverse_append, List.reverse_append,
    List.rtake_eq_reverse_take_reverse, List.reverse_reverse,
    take_append_take]

theorem histAppend_eq_rtake (h : List Snap) (e : Snap) :
    histAppend h e = (h ++ [e]).rtake MAX_HISTORY_LEN := by
  simp only [histAppend]
  split
  · rfl
  · next hle => rw [rtake_of_length_le (by omega)]

theorem histAppend_length_le (h : List Snap) (e : Snap) :
    (histAppend h e).length ≤ MAX_HISTORY_LEN := by
  rw [histAppend_eq_rtake, length_rtake]
  omega

theorem foldl_histAppend_of_le (es : List Snap) :
    ∀ h : List Snap, h.length ≤ MAX_HISTORY_LEN →
      es.foldl histAppend h = (h ++ es).rtake MAX_HISTORY_LEN := by
  induction es with
  | nil =>
    intro h hl
    simpa using (rtake_of_length_le hl).symm
  | cons e es ih =>
    intro h hl
    rw [List.foldl_cons, ih (histAppend h e) (histAppend_length_le h e),
      histAppend_eq_rtake, rtake_rtake_append]
    simp

theorem foldl_histAppend_ne_nil (h₀ : List Snap) (es : List Snap)
    (hne : es ≠ []) :
    es.foldl histAppend h₀ = (h₀ ++ es).rtake MAX_HISTORY_LEN := by
  cases es with
  | nil => exact absurd rfl hne
  | cons e es =>
    rw [List.foldl_cons, foldl_histAppend_of_le es _ (histAppend_length_le h₀ e),
      histAppend_eq_rtake, rtake_rtake_append]
    simp

theorem summaryFold_arr (key secret : Option String)
    (hkey : envTruthy key = true) (hsec : envTruthy secret = true)
    (calls : List SCall) :
    ∀ h : List Snap,
      summaryFold key secret (.content (.arr h)) calls =
        .content (.arr (calls.foldl (fun h c => histAppend h (summarySnap c)) h)) := by
  induction calls with
  | nil => intro h; rfl
  | cons c cs ih =>
    intro h
    have hstep :
        (get_summary key secret (.ok c.payload) c.now (.content (.arr h))).2 =
          .content (.arr (histAppend h (summarySnap c))) := by
      simp [get_summary, get_binance_client, hkey, hsec,
        load_balance_history, save_balance_history, summarySnap]
    calc summaryFold key secret (.content (.arr h)) (c :: cs)
        = summaryFold key secret
            ((get_summary key secret (.ok c.payload) c.now (.content (.arr h))).2)
            cs := rfl
      _ = _ := by rw [hstep, ih, List.foldl_cons]

theorem get_comments_arr {fs : FileState CommentRec}
    {comments : List CommentRec} (hload : load_comments fs = .arr comments) :
    get_comments fs = .ok (commentViews 1 comments) := by
  simp [get_comments, hload]

theorem post_comment_arr {fs : FileState CommentRec}
    {comments : List CommentRec} (hload : load_comments fs = .arr comments)
    {content : String} (hne : pyStrip content ≠ "") (now : String) :
    post_comment content now fs =
      (.ok { id := comments.length + 1,
             nick := "익명" ++ toString (comments.length + 1),
             content := pyStrip content, created_at := now },
       save_comments (comments ++ [{ content := some (pyStrip content),
                                     created_at := some now }])) := by
  have hbe : (pyStrip content == "") = false := by
    simpa using hne
  simp [post_comment, hbe, hload]

theorem commentViews_length (k : Nat) (cs : List CommentRec) :
    (commentViews k cs).length = cs.length := by
  induction cs generalizing k with
  | nil => rfl
  | cons c cs ih => simp [commentViews, ih]

theorem commentViews_concat (k : Nat) (cs : List CommentRec) (c : CommentRec) :
    commentViews k (cs ++ [c]) =
      commentViews k cs ++ [commentView (k + cs.length) c] := by
  induction cs generalizing k with
  | nil => simp [commentViews]
  | cons c₀ cs ih =>
    simp only [List.cons_append, commentViews, List.length_cons, List.append_eq]
    rw [ih (k + 1)]
    have : k + 1 + cs.length = k + (cs.length + 1) := by omega
    rw [this]

theorem commentViews_get? (cs : List CommentRec) :
    ∀ (k i : Nat),
      (commentViews k cs).get? i = (cs.get? i).map (commentView (k + i)) := by
  induction cs with
  | nil => intro k i; simp [commentViews]
  | cons c cs ih =>
    intro k i
    cases i with
    | zero => simp [commentViews]
    | succ i =>
      simp only [commentViews, List.get?_cons_succ]
      rw [ih (k + 1) i]
      have : k + 1 + i = k + (i + 1) := by omega
      rw [this]

/-! ### Claim theorems -/

/-- **C1.** For every starting history sequence and every sequence of N
successful append calls to the balance history store via `/api/summary`
with N > 500, the stored sequence afterwards has length exactly 500 and
consists of the most recent 500 appended entries in their original
insertion order; moreover the length-≤-500 invariant is preserved by every
append step. -/
theorem summary_history_cap (key secret : Option String) (h₀ : List Snap)
    (calls : List SCall) (hkey : envTruthy key = true)
    (hsec : envTruthy secret = true)
    (hN : MAX_HISTORY_LEN < calls.length) :
    (∃ final : List Snap,
        summaryFold key secret (.content (.arr h₀)) calls =
          .content (.arr final) ∧
        final = (calls.map summarySnap).rtake MAX_HISTORY_LEN ∧
        final.length = MAX_HISTORY_LEN) ∧
    ∀ (h : List Snap) (e : Snap), h.length ≤ MAX_HISTORY_LEN →
      (histAppend h e).length ≤ MAX_HISTORY_LEN := by
  constructor
  · have hmaplen : (calls.map summarySnap).length = calls.length := by
      rw [List.length_map]
    have hcne : calls ≠ [] := by
      intro hc
      rw [hc] at hN
      simp [MAX_HISTORY_LEN] at hN
    have hne : calls.map summarySnap ≠ [] := by
      simpa [List.map_eq_nil_iff] using hcne
    refine ⟨(calls.map summarySnap).rtake MAX_HISTORY_LEN, ?_, rfl, ?_⟩
    · rw [summaryFold_arr key secret hkey hsec calls h₀, ← List.foldl_map,
        foldl_histAppend_ne_nil h₀ _ hne,
        rtake_append_right h₀ _ (by omega)]
    · rw [length_rtake]
      omega
  · exact fun h e _ => histAppend_length_le h e

/-- Witness for C1 at a concrete input: empty starting history, 501
summary calls with present credentials. -/
theorem summary_history_cap_witness :
    (∃ final : List Snap,
        summaryFold (some "k") (some "s") (.content (.arr []))
            (List.replicate 501 { payload := [], now := "t" }) =
          .content (.arr final) ∧
        final = ((List.replicate 501
            ({ payload := [], now := "t" } : SCall)).map summarySnap).rtake
            MAX_HISTORY_LEN ∧
        final.length = MAX_HISTORY_LEN) ∧
    ∀ (h : List Snap) (e : Snap), h.length ≤ MAX_HISTORY_LEN →
      (histAppend h e).length ≤ MAX_HISTORY_LEN :=
  summary_history_cap (some "k") (some "s") []
    (List.replicate 501 { payload := [], now := "t" })
    (by decide) (by decide) (by rw [List.length_replicate]; decide)

/-- **C2, counterexample.**  The claim states that the record returned by
`POST /api/comments` has `nick` equal to the string `"Anonymous"` followed
by the id.  On an empty store with content `"hello"`, the code returns
`nick = "익명1"`, which differs from `"Anonymous1"`. -/
theorem post_comment_nick_counterexample :
    (post_comment "hello" "2024-01-01T00:00:00" FileState.absent).1 =
      PostResult.ok { id := 1, nick := "익명1", content := "hello",
                      created_at := "2024-01-01T00:00:00" } ∧
    "익명1" ≠ "Anonymous" ++ toString 1 := by
  constructor
  · rfl
  · decide

/-- **C2, amended.** For every content string that is non-empty after
trimming, `POST /api/comments` succeeds, persists the trimmed content, and
returns a record with `id` equal to the new total length of the stored
sequence and `nick` equal to the string `"익명"` (the app's localised
"Anonymous" label) followed by that id; a subsequent `GET /api/comments`
shows that entry at the last position with the same id and nick. -/
theorem post_comment_append_ok (content now : String)
    (fs : FileState CommentRec) (comments : List CommentRec)
    (hload : load_comments fs = .arr comments)
    (hne : pyStrip content ≠ "") :
    ∃ (out : CommentOut) (fs' : FileState CommentRec),
      post_comment content now fs = (.ok out, fs') ∧
      out.id = comments.length + 1 ∧
      out.nick = "익명" ++ toString (comments.length + 1) ∧
      out.content = pyStrip content ∧
      out.created_at = now ∧
      fs' = save_comments (comments ++ [{ content := some (pyStrip content),
                                          created_at := some now }]) ∧
      ∃ views : List CommentOut,
        get_comments fs' = .ok views ∧
        views.length = comments.length + 1 ∧
        views.getLast? = some out := by
  refine ⟨_, _, post_comment_arr hload hne now, rfl, rfl, rfl, rfl, rfl, ?_⟩
  refine ⟨_, get_comments_arr rfl, ?_, ?_⟩
  · rw [commentViews_length]
    simp
  · rw [commentViews_concat, List.getLast?_concat]
    have h1 : 1 + comments.length = comments.length + 1 := Nat.add_comm 1 _
    rw [h1]
    simp [commentView]

/-- Witness for C2 (amended) at a concrete input: empty store, content
`" hello "`. -/
theorem post_comment_append_ok_witness :
    ∃ (out : CommentOut) (fs' : FileState CommentRec),
      post_comment " hello " "t" FileState.absent = (.ok out, fs') ∧
      out.id = ([] : List CommentRec).length + 1 ∧
      out.nick = "익명" ++ toString (([] : List CommentRec).length + 1) ∧
      out.content = pyStrip " hello " ∧
      out.created_at = "t" ∧
      fs' = save_comments ([] ++ [{ content := some (pyStrip " hello "),
                                    created_at := some "t" }]) ∧
      ∃ views : List CommentOut,
        get_comments fs' = .ok views ∧
        views.length = ([] : List CommentRec).length + 1 ∧
        views.getLast? = some out :=
  post_comment_append_ok " hello " "t" FileState.absent [] rfl (by decide)

/-- **C3, counterexample.**  The claim states the HTTP 400 body is
`{detail: "content is empty"}`.  On whitespace-only input the code answers
with detail `"내용이 비어있습니다."`, which differs from `"content is
empty"`. -/
theorem post_comment_empty_counterexample :
    (post_comment "   " "t" FileState.absent).1 =
      PostResult.badRequest 400 "내용이 비어있습니다." ∧
    "내용이 비어있습니다." ≠ "content is empty" := by
  constructor
  · rfl
  · decide

/-- **C3, amended.** For every content string consisting only of whitespace
(including the empty string), `POST /api/comments` fails with HTTP 400 and
body `{detail: "내용이 비어있습니다."}` (the app's localised "content is
empty" message), nothing is persisted, and the stored comment file is
entirely unchanged. -/
theorem post_comment_whitespace_rejected (content now : String)
    (fs : FileState CommentRec)
    (hws : ∀ c ∈ content.data, pyIsSpace c) :
    post_comment content now fs = (.badRequest 400 emptyContentMsg, fs) := by
  have hstrip : pyStrip content = "" := by
    have h1 : content.data.dropWhile pyIsSpace = [] :=
      List.dropWhile_eq_nil_iff.mpr hws
    simp [pyStrip, h1]
  simp [post_comment, hstrip]

/-- Witness for C3 (amended) at a concrete input: content
`" \x0b\x0c"` — a space, a vertical tab and a form feed. -/
theorem post_comment_whitespace_rejected_witness :
    post_comment " \x0b\x0c" "t" FileState.absent =
      (.badRequest 400 emptyContentMsg, FileState.absent) :=
  post_comment_whitespace_rejected " \x0b\x0c" "t" FileState.absent
    (by decide)

/-- **C4, counterexample.**  The claim states that a file containing
malformed/invalid data always loads as the empty sequence.  The code only
catches `json.JSONDecodeError`: a file whose contents parse as a JSON value
that is not an array (e.g. the file text `0`) is returned as parsed, not
reset to the empty sequence, on both stores. -/
theorem load_nonarray_counterexample :
    load_comments (FileState.content JVal.nonArr) ≠ JVal.arr [] ∧
    load_balance_history (FileState.content JVal.nonArr) ≠ JVal.arr [] := by
  constructor <;> decide

/-- **C4, amended.** Load on either store never raises to the caller: an
absent file or a file that fails to parse as JSON yields the empty
sequence, while a file holding a parseable JSON value is returned exactly
as parsed (so a non-array JSON value is passed through rather than reset to
the empty sequence). -/
theorem load_missing_or_undecodable :
    load_comments .absent = .arr [] ∧
    load_comments .malformed = .arr [] ∧
    (∀ v : JVal CommentRec, load_comments (.content v) = v) ∧
    load_balance_history .absent = .arr [] ∧
    load_balance_history .malformed = .arr [] ∧
    (∀ v : JVal Snap, load_balance_history (.content v) = v) :=
  ⟨rfl, rfl, fun _ => rfl, rfl, rfl, fun _ => rfl⟩

/-- **C5.** For every exchange balance payload containing an entry whose
asset field equals `"USDT"`, `GET /api/balance` returns a single balance
object in which `locked = total - free` exactly, with `total` taken from
the (first such) entry's `balance` field and `free` from its
`availableBalance` field, and with the asset label the literal string
`"USDT (Futures)"`. -/
theorem balance_usdt_locked (key secret : Option String)
    (hkey : envTruthy key = true) (hsec : envTruthy secret = true)
    (payload : List ExEntry)
    (husdt : ∃ b ∈ payload, b.asset = some "USDT") :
    ∃ (u : ExEntry) (total free : ℚ),
      findUsdt payload = some u ∧
      total = u.balance.getD 0 ∧
      free = u.availableBalance.getD 0 ∧
      get_balance key secret (.ok payload) =
        .ok [{ asset := "USDT (Futures)", free := free,
               locked := total - free, total := total }] := by
  obtain ⟨b, hb, hba⟩ := husdt
  have hsome : (findUsdt payload).isSome :=
    List.find?_isSome.mpr ⟨b, hb, by simp [hba]⟩
  obtain ⟨u, hu⟩ := Option.isSome_iff_exists.mp hsome
  refine ⟨u, _, _, hu, rfl, rfl, ?_⟩
  simp [get_balance, get_binance_client, hkey, hsec, hu]

/-- Witness for C5 at a concrete input: one USDT entry with balance 5 and
available balance 2. -/
theorem balance_usdt_locked_witness :
    ∃ (u : ExEntry) (total free : ℚ),
      findUsdt [{ asset := some "USDT", balance := some 5,
                  availableBalance := some 2 }] = some u ∧
      total = u.balance.getD 0 ∧
      free = u.availableBalance.getD 0 ∧
      get_balance (some "k") (some "s")
          (.ok [{ asset := some "USDT", balance := some 5,
                  availableBalance := some 2 }]) =
        .ok [{ asset := "USDT (Futures)", free := free,
               locked := total - free, total := total }] :=
  balance_usdt_locked (some "k") (some "s") (by decide) (by decide)
    [{ asset := some "USDT", balance := some 5, availableBalance := some 2 }]
    (by decide)

/-- **C6.** When either exchange credential is absent (or empty), the
failure is detected at call time: `GET /api/balance` and `GET /api/summary`
each return HTTP 500 with a `status:"error"` body carrying the fixed
message, the summary call leaves the history file untouched, and every
other route — health, balance-history, comment read, comment write —
behaves exactly as it always does. -/
theorem missing_credentials_degrade (key secret : Option String)
    (hmiss : envTruthy key = false ∨ envTruthy secret = false) :
    (∀ ex, get_balance key secret ex = .err 500 "error" keyMissingMsg) ∧
    (∀ ex now fs, get_summary key secret ex now fs =
        (.err 500 "error" keyMissingMsg, fs)) ∧
    health_check = { status := "ok" } ∧
    (∀ fs, get_balance_history fs =
        { status := "ok", history := load_balance_history fs }) ∧
    (∀ fs comments, load_comments fs = .arr comments →
        get_comments fs = .ok (commentViews 1 comments)) ∧
    (∀ content now fs, pyStrip content = "" →
        post_comment content now fs = (.badRequest 400 emptyContentMsg, fs)) ∧
    (∀ content now fs comments, load_comments fs = .arr comments →
        pyStrip content ≠ "" →
        (post_comment content now fs).1 =
          .ok { id := comments.length + 1,
                nick := "익명" ++ toString (comments.length + 1),
                content := pyStrip content, created_at := now }) := by
  have hcl : get_binance_client key secret = .error keyMissingMsg := by
    rcases hmiss with h | h <;> simp [get_binance_client, h]
  refine ⟨?_, ?_, rfl, fun fs => rfl, ?_, ?_, ?_⟩
  · intro ex
    simp [get_balance, hcl]
  · intro ex now fs
    simp [get_summary, hcl]
  · intro fs comments h
    exact get_comments_arr h
  · intro content now fs h
    simp [post_comment, h]
  · intro content now fs comments hl hne
    rw [post_comment_arr hl hne now]

/-- Witness for C6 at a concrete input: key unset, secret set. -/
theorem missing_credentials_degrade_witness :
    (∀ ex, get_balance none (some "s") ex = .err 500 "error" keyMissingMsg) ∧
    (∀ ex now fs, get_summary none (some "s") ex now fs =
        (.err 500 "error" keyMissingMsg, fs)) ∧
    health_check = { status := "ok" } ∧
    (∀ fs, get_balance_history fs =
        { status := "ok", history := load_balance_history fs }) ∧
    (∀ fs comments, load_comments fs = .arr comments →
        get_comments fs = .ok (commentViews 1 comments)) ∧
    (∀ content now fs, pyStrip content = "" →
        post_comment content now fs = (.badRequest 400 emptyContentMsg, fs)) ∧
    (∀ content now fs comments, load_comments fs = .arr comments →
        pyStrip content ≠ "" →
        (post_comment content now fs).1 =
          .ok { id := comments.length + 1,
                nick := "익명" ++ toString (comments.length + 1),
                content := pyStrip content, created_at := now }) :=
  missing_credentials_degrade none (some "s") (Or.inl rfl)

/-- **C7.** For every exchange balance payload containing no entry with
asset `"USDT"`, `GET /api/balance` returns `{status:"ok", balances:[]}`,
and `GET /api/summary` treats the balance as `0.0`: it reports
`futures_usdt_balance = 0` and appends a snapshot with balance `0` to the
history. -/
theorem no_usdt_defaults_zero (key secret : Option String)
    (hkey : envTruthy key = true) (hsec : envTruthy secret = true)
    (payload : List ExEntry)
    (hnone : ∀ b ∈ payload, b.asset ≠ some "USDT")
    (now : String) (fs : FileState Snap) (h : List Snap)
    (hload : load_balance_history fs = .arr h) :
    get_balance key secret (.ok payload) = .ok [] ∧
    get_summary key secret (.ok payload) now fs =
      (.ok { coin_count := 1, futures_usdt_balance := 0, pnl_rate := none },
       save_balance_history (histAppend h { timestamp := now, balance := 0 })) := by
  have hfind : findUsdt payload = none :=
    List.find?_eq_none.mpr (fun b hb => by simp [hnone b hb])
  constructor
  · simp [get_balance, get_binance_client, hkey, hsec, hfind]
  · simp [get_summary, get_binance_client, hkey, hsec, summaryBalance,
      hfind, hload]

/-- Witness for C7 at a concrete input: a payload holding only a BTC
entry, with an absent history file. -/
theorem no_usdt_defaults_zero_witness :
    get_balance (some "k") (some "s2")
        (.ok [{ asset := some "BTC", balance := some 1,
                availableBalance := some 1 }]) = .ok [] ∧
    get_summary (some "k") (some "s2")
        (.ok [{ asset := some "BTC", balance := some 1,
                availableBalance := some 1 }]) "t" .absent =
      (.ok { coin_count := 1, futures_usdt_balance := 0, pnl_rate := none },
       save_balance_history (histAppend [] { timestamp := "t", balance := 0 })) :=
  no_usdt_defaults_zero (some "k") (some "s2") (by decide) (by decide)
    [{ asset := some "BTC", balance := some 1, availableBalance := some 1 }]
    (by decide) "t" .absent [] rfl

/-- **C8.** Load is idempotent: for a fixed on-disk file state, reading a
store is a read-only operation (it leaves the file state unchanged), and
reading it twice with no intervening append returns equal values, on both
stores. -/
theorem load_twice_idempotent (fsC : FileState CommentRec)
    (fsH : FileState Snap) :
    (load_comments_op fsC).2 = fsC ∧
    (load_comments_op ((load_comments_op fsC).2)).1 =
      (load_comments_op fsC).1 ∧
    (load_balance_history_op fsH).2 = fsH ∧
    (load_balance_history_op ((load_balance_history_op fsH).2)).1 =
      (load_balance_history_op fsH).1 :=
  ⟨rfl, rfl, rfl, rfl⟩

/-- **C9.** Round-trip: for every sequence of records, `save` followed by
`load` on the same store yields exactly the saved sequence, on both
stores. -/
theorem save_load_roundtrip (comments : List CommentRec)
    (history : List Snap) :
    load_comments (save_comments comments) = .arr comments ∧
    load_balance_history (save_balance_history history) = .arr history :=
  ⟨rfl, rfl⟩

/-- **C10.** For every stored comment entry that lacks a `content` or
`created_at` key, `GET /api/comments` does not fail: it substitutes the
empty string for the missing field while still assigning the entry its
1-based positional id and nickname. -/
theorem comments_missing_fields_defaulted (fs : FileState CommentRec)
    (comments : List CommentRec)
    (hload : load_comments fs = .arr comments) :
    ∃ views : List CommentOut,
      get_comments fs = .ok views ∧
      views.length = comments.length ∧
      ∀ (i : Nat) (c : CommentRec), comments.get? i = some c →
        views.get? i = some { id := i + 1,
                              nick := "익명" ++ toString (i + 1),
                              content := c.content.getD "",
                              created_at := c.created_at.getD "" } := by
  refine ⟨_, get_comments_arr hload, commentViews_length 1 comments, ?_⟩
  intro i c hc
  rw [commentViews_get? comments 1 i, hc, Nat.add_comm 1 i]
  rfl

/-- Witness for C10 at a concrete input: a one-element store whose entry
lacks both keys. -/
theorem comments_missing_fields_defaulted_witness :
    ∃ views : List CommentOut,
      get_comments (.content (.arr [{ content := none, created_at := none }]))
        = .ok views ∧
      views.length = [({ content := none, created_at := none } : CommentRec)].length ∧
      ∀ (i : Nat) (c : CommentRec),
        [({ content := none, created_at := none } : CommentRec)].get? i = some c →
        views.get? i = some { id := i + 1,
                              nick := "익명" ++ toString (i + 1),
                              content := c.content.getD "",
                              created_at := c.created_at.getD "" } :=
  comments_missing_fields_defaulted
    (.content (.arr [{ content := none, created_at := none }]))
    [{ content := none, created_at := none }] rfl
